import Mathlib

/-!
Shallow embedding of the packet serialization layer of na2axl/engine.io
(src/parser/packet_codec.go): a Packet model, the type/char mapping table,
and the three codecs (binary, string, base64), each with decode / writeTo /
encode.  Bytes are modelled as `Nat` values (< 256 on real inputs); a
`writeTo` call is modelled as the ordered sequence of write calls it issues
(each write a byte list), and `encode` as their concatenation into one
buffer, mirroring `bytes.Buffer`.  Go's `base64.StdEncoding` (standard
alphabet, mandatory padding, newline bytes skipped, trailing bits of the
last symbol ignored) is modelled by `b64EncodeBytes` / `b64DecodeString`.
-/

namespace EngineIO

/-- Modelled from the spec: the seven members of the PacketType enumeration
(`OPEN`=0 … `NOOP`=6, spec sections 3 and 6); the enum declarations are not in
src, only the codec file is. -/
def OPEN : Nat := 0

def CLOSE : Nat := 1

def PING : Nat := 2

def PONG : Nat := 3

def MESSAGE : Nat := 4

def UPGRADE : Nat := 5

def NOOP : Nat := 6

/-- Modelled from the spec: the BINARY payload flag marker (spec section 3);
its numeric value is not in src, only that it is distinct from the
zero/default flag, so it is fixed here as 1. -/
def BINARY : Nat := 1

/-- Modelled from the spec: the Packet value object (spec section 3) — a type
tag, a byte payload, and the wire-form flag.  The struct declaration is not in
src. -/
structure Packet where
  type : Nat
  data : List Nat
  flag : Nat
deriving DecidableEq, Repr

/-- Modelled from the spec: the packet constructor used by the decoders
(`NewPacketCustom(t, data, flag)`); its definition is not in src. -/
def NewPacketCustom (t : Nat) (d : List Nat) (f : Nat) : Packet :=
  ⟨t, d, f⟩

/-- The error kinds of spec section 7.  The Go code returns formatted error
values; each constructor stands for one of them, carrying the offending value
the message reports. -/
inductive CodecError where
  | EmptyInput : CodecError
  | InvalidPacketType : Nat → CodecError
  | InvalidFraming : List Nat → CodecError
  | InvalidPayloadEncoding : CodecError
deriving DecidableEq, Repr

/-- `convertCharToType` (packet_codec.go:151): ASCII digit 48..54 to type. -/
def convertCharToType (c : Nat) : Except CodecError Nat :=
  if c = 48 then .ok OPEN
  else if c = 49 then .ok CLOSE
  else if c = 50 then .ok PING
  else if c = 51 then .ok PONG
  else if c = 52 then .ok MESSAGE
  else if c = 53 then .ok UPGRADE
  else if c = 54 then .ok NOOP
  else .error (.InvalidPacketType c)

/-- `convertTypeToChar` (packet_codec.go:172): type to ASCII digit 48..54. -/
def convertTypeToChar (ptype : Nat) : Except CodecError Nat :=
  if ptype = OPEN then .ok 48
  else if ptype = CLOSE then .ok 49
  else if ptype = PING then .ok 50
  else if ptype = PONG then .ok 51
  else if ptype = MESSAGE then .ok 52
  else if ptype = UPGRADE then .ok 53
  else if ptype = NOOP then .ok 54
  else .error (.InvalidPacketType ptype)

/-- The seven-member validity predicate, mirroring the `switch` cases of the
Go code. -/
def isValidType (t : Nat) : Prop :=
  t = OPEN ∨ t = CLOSE ∨ t = PING ∨ t = PONG ∨ t = MESSAGE ∨ t = UPGRADE ∨ t = NOOP

instance (t : Nat) : Decidable (isValidType t) := by
  unfold isValidType; infer_instance

/-! ### Base64 (Go encoding/base64 StdEncoding model) -/

/-- Standard base64 alphabet: index 0..63 to ASCII byte. -/
def b64Chr (i : Nat) : Nat :=
  if i < 26 then 65 + i
  else if i < 52 then 97 + (i - 26)
  else if i < 62 then 48 + (i - 52)
  else if i = 62 then 43
  else 47

/-- Inverse alphabet lookup: ASCII byte to index, `none` off the alphabet
(the padding byte 61 is not in the alphabet). -/
def b64CharVal (c : Nat) : Option Nat :=
  if 65 ≤ c ∧ c ≤ 90 then some (c - 65)
  else if 97 ≤ c ∧ c ≤ 122 then some (26 + (c - 97))
  else if 48 ≤ c ∧ c ≤ 57 then some (52 + (c - 48))
  else if c = 43 then some 62
  else if c = 47 then some 63
  else none

/-- `base64.StdEncoding.EncodeToString`: bytes to padded standard base64
text (as ASCII bytes). -/
def b64EncodeBytes : List Nat → List Nat
  | [] => []
  | [b1] => [b64Chr (b1 / 4), b64Chr (b1 % 4 * 16), 61, 61]
  | [b1, b2] => [b64Chr (b1 / 4), b64Chr (b1 % 4 * 16 + b2 / 16), b64Chr (b2 % 16 * 4), 61]
  | b1 :: b2 :: b3 :: rest =>
      b64Chr (b1 / 4) :: b64Chr (b1 % 4 * 16 + b2 / 16) ::
        b64Chr (b2 % 16 * 4 + b3 / 64) :: b64Chr (b3 % 64) :: b64EncodeBytes rest

/-- Quantum-wise standard base64 decoding with mandatory padding: input is
consumed four symbols at a time; a padded quantum must end the input; any
other shape, or a byte off the alphabet, is a corrupt-input error
(InvalidPayloadEncoding).  The unused trailing bits of the last symbol are
ignored, as Go's non-strict StdEncoding does. -/
def b64DecodeQuanta : List Nat → Except CodecError (List Nat)
  | [] => .ok []
  | c1 :: c2 :: c3 :: c4 :: rest =>
    match b64CharVal c1, b64CharVal c2 with
    | some v1, some v2 =>
      if c3 = 61 then
        if c4 = 61 ∧ rest = [] then .ok [v1 * 4 + v2 / 16]
        else .error .InvalidPayloadEncoding
      else
        match b64CharVal c3 with
        | some v3 =>
          if c4 = 61 then
            if rest = [] then .ok [v1 * 4 + v2 / 16, v2 % 16 * 16 + v3 / 4]
            else .error .InvalidPayloadEncoding
          else
            match b64CharVal c4 with
            | some v4 =>
              match b64DecodeQuanta rest with
              | .ok bs => .ok ((v1 * 4 + v2 / 16) :: (v2 % 16 * 16 + v3 / 4) :: (v3 % 4 * 64 + v4) :: bs)
              | .error e => .error e
            | none => .error .InvalidPayloadEncoding
        | none => .error .InvalidPayloadEncoding
    | _, _ => .error .InvalidPayloadEncoding
  | _ => .error .InvalidPayloadEncoding

/-- `base64.StdEncoding.DecodeString`: newline bytes (10, 13) are skipped,
then the stream is decoded quantum-wise. -/
def b64DecodeString (s : List Nat) : Except CodecError (List Nat) :=
  b64DecodeQuanta (s.filter fun c => c != 10 && c != 13)

/-! ### Binary codec (packet_codec.go:23-56) -/

namespace binCodec

/-- `binCodec.decode` (packet_codec.go:26): first byte is the raw numeric
type value; remaining bytes are Data; Flag is BINARY. -/
def decode (data : List Nat) : Except CodecError Packet :=
  match data with
  | [] => .error .EmptyInput
  | b :: rest =>
    if b = OPEN ∨ b = CLOSE ∨ b = PING ∨ b = PONG ∨ b = MESSAGE ∨ b = UPGRADE ∨ b = NOOP then
      .ok (NewPacketCustom b rest BINARY)
    else .error (.InvalidPacketType b)

/-- `binCodec.writeTo` (packet_codec.go:39): writes `byte(packet.Type)`
(hence mod 256), then Data only when non-empty.  No type validation. -/
def writeTo (packet : Packet) : Except CodecError (List (List Nat)) :=
  if packet.data = [] then .ok [[packet.type % 256]]
  else .ok [[packet.type % 256], packet.data]

/-- `binCodec.encode` (packet_codec.go:50): writeTo into a fresh buffer. -/
def encode (packet : Packet) : Except CodecError (List Nat) :=
  match writeTo packet with
  | .error e => .error e
  | .ok ws => .ok ws.flatten

end binCodec

/-! ### String codec (packet_codec.go:58-91) -/

namespace strCodec

/-- `strCodec.decode` (packet_codec.go:61): first byte through the digit
table; remaining bytes are Data; Flag is 0. -/
def decode (data : List Nat) : Except CodecError Packet :=
  match data with
  | [] => .error .EmptyInput
  | b :: rest =>
    match convertCharToType b with
    | .error e => .error e
    | .ok t => .ok (NewPacketCustom t rest 0)

/-- `strCodec.writeTo` (packet_codec.go:72): digit byte through the table
(failing on an invalid type before any write), then a write of Data issued
even when Data is empty. -/
def writeTo (packet : Packet) : Except CodecError (List (List Nat)) :=
  match convertTypeToChar packet.type with
  | .error e => .error e
  | .ok t => .ok [[t], packet.data]

/-- `strCodec.encode` (packet_codec.go:85): writeTo into a fresh buffer. -/
def encode (packet : Packet) : Except CodecError (List Nat) :=
  match writeTo packet with
  | .error e => .error e
  | .ok ws => .ok ws.flatten

end strCodec

/-! ### Base64 codec (packet_codec.go:93-149) -/

namespace b64Codec

/-- `b64Codec.decode` (packet_codec.go:96): short form (length 1) is a digit
alone; long form needs byte 98 (`b`), a digit, then a standard base64 body.
Flag is BINARY in both forms. -/
def decode (data : List Nat) : Except CodecError Packet :=
  match data with
  | [] => .error .EmptyInput
  | [c] =>
    match convertCharToType c with
    | .error e => .error e
    | .ok t => .ok (NewPacketCustom t [] BINARY)
  | b0 :: b1 :: rest =>
    if b0 = 98 then
      match convertCharToType b1 with
      | .error e => .error e
      | .ok t =>
        match b64DecodeString rest with
        | .error e => .error e
        | .ok ds => .ok (NewPacketCustom t ds BINARY)
    else .error (.InvalidFraming (b0 :: b1 :: rest))

/-- `b64Codec.writeTo` (packet_codec.go:120): digit through the table
(failing before any write on an invalid type); empty Data gives the digit
alone, otherwise 98 (`b`), the digit, and the base64 body, as three writes. -/
def writeTo (packet : Packet) : Except CodecError (List (List Nat)) :=
  match convertTypeToChar packet.type with
  | .error e => .error e
  | .ok t =>
    if packet.data = [] then .ok [[t]]
    else .ok [[98], [t], b64EncodeBytes packet.data]

/-- `b64Codec.encode` (packet_codec.go:143): writeTo into a fresh buffer. -/
def encode (packet : Packet) : Except CodecError (List Nat) :=
  match writeTo packet with
  | .error e => .error e
  | .ok ws => .ok ws.flatten

end b64Codec

/-! ### Helper lemmas -/

theorem b64CharVal_b64Chr : ∀ i < 64, b64CharVal (b64Chr i) = some i := by decide

theorem b64Chr_ne_pad (i : Nat) : b64Chr i ≠ 61 := by
  unfold b64Chr; split_ifs <;> omega

theorem b64Chr_ge (i : Nat) : 43 ≤ b64Chr i := by
  unfold b64Chr; split_ifs <;> omega

theorem b64Encode_mem_ge : ∀ (bs : List Nat), ∀ a ∈ b64EncodeBytes bs, 43 ≤ a
  | [], a, ha => by simp [b64EncodeBytes] at ha
  | [b1], a, ha => by
      simp only [b64EncodeBytes, List.mem_cons, List.not_mem_nil, or_false] at ha
      rcases ha with h | h | h | h <;> subst h
      · exact b64Chr_ge _
      · exact b64Chr_ge _
      · omega
      · omega
  | [b1, b2], a, ha => by
      simp only [b64EncodeBytes, List.mem_cons, List.not_mem_nil, or_false] at ha
      rcases ha with h | h | h | h <;> subst h
      · exact b64Chr_ge _
      · exact b64Chr_ge _
      · exact b64Chr_ge _
      · omega
  | b1 :: b2 :: b3 :: rest, a, ha => by
      simp only [b64EncodeBytes, List.mem_cons] at ha
      rcases ha with h | h | h | h | h
      · subst h; exact b64Chr_ge _
      · subst h; exact b64Chr_ge _
      · subst h; exact b64Chr_ge _
      · subst h; exact b64Chr_ge _
      · exact b64Encode_mem_ge rest a h

theorem b64Encode_filter (bs : List Nat) :
    List.filter (fun c => c != 10 && c != 13) (b64EncodeBytes bs) = b64EncodeBytes bs := by
  apply List.filter_eq_self.mpr
  intro a ha
  have h := b64Encode_mem_ge bs a ha
  simp only [bne_iff_ne, ne_eq, Bool.and_eq_true, decide_eq_true_eq]
  omega

theorem b64_roundtrip : ∀ (bs : List Nat), (∀ b ∈ bs, b < 256) →
    b64DecodeQuanta (b64EncodeBytes bs) = .ok bs
  | [], _ => rfl
  | [b1], h => by
      have h1 : b1 < 256 := h b1 (by simp)
      have e1 : b64CharVal (b64Chr (b1 / 4)) = some (b1 / 4) :=
        b64CharVal_b64Chr _ (by omega)
      have e2 : b64CharVal (b64Chr (b1 % 4 * 16)) = some (b1 % 4 * 16) :=
        b64CharVal_b64Chr _ (by omega)
      simp only [b64EncodeBytes, b64DecodeQuanta, e1, e2]
      simp only [reduceIte, Except.ok.injEq, List.cons.injEq, and_true]
      omega
  | [b1, b2], h => by
      have h1 : b1 < 256 := h b1 (by simp)
      have h2 : b2 < 256 := h b2 (by simp)
      have e1 : b64CharVal (b64Chr (b1 / 4)) = some (b1 / 4) :=
        b64CharVal_b64Chr _ (by omega)
      have e2 : b64CharVal (b64Chr (b1 % 4 * 16 + b2 / 16)) = some (b1 % 4 * 16 + b2 / 16) :=
        b64CharVal_b64Chr _ (by omega)
      have e3 : b64CharVal (b64Chr (b2 % 16 * 4)) = some (b2 % 16 * 4) :=
        b64CharVal_b64Chr _ (by omega)
      simp only [b64EncodeBytes, b64DecodeQuanta, e1, e2, e3, b64Chr_ne_pad, if_false,
        reduceIte, Except.ok.injEq, List.cons.injEq, and_true]
      constructor <;> omega
  | b1 :: b2 :: b3 :: rest, h => by
      have h1 : b1 < 256 := h b1 (by simp)
      have h2 : b2 < 256 := h b2 (by simp)
      have h3 : b3 < 256 := h b3 (by simp)
      have ih := b64_roundtrip rest (fun b hb => h b (by simp [hb]))
      have e1 : b64CharVal (b64Chr (b1 / 4)) = some (b1 / 4) :=
        b64CharVal_b64Chr _ (by omega)
      have e2 : b64CharVal (b64Chr (b1 % 4 * 16 + b2 / 16)) = some (b1 % 4 * 16 + b2 / 16) :=
        b64CharVal_b64Chr _ (by omega)
      have e3 : b64CharVal (b64Chr (b2 % 16 * 4 + b3 / 64)) = some (b2 % 16 * 4 + b3 / 64) :=
        b64CharVal_b64Chr _ (by omega)
      have e4 : b64CharVal (b64Chr (b3 % 64)) = some (b3 % 64) :=
        b64CharVal_b64Chr _ (by omega)
      simp only [b64EncodeBytes, b64DecodeQuanta, e1, e2, e3, e4, b64Chr_ne_pad, if_false,
        ih, Except.ok.injEq, List.cons.injEq, and_true]
      refine ⟨by omega, by omega, by omega⟩

theorem b64DecodeString_roundtrip (bs : List Nat) (h : ∀ b ∈ bs, b < 256) :
    b64DecodeString (b64EncodeBytes bs) = .ok bs := by
  unfold b64DecodeString
  rw [b64Encode_filter]
  exact b64_roundtrip bs h

theorem convertTypeToChar_valid (t : Nat) (h : isValidType t) :
    convertTypeToChar t = .ok (t + 48) := by
  rcases h with h | h | h | h | h | h | h <;> subst h <;> rfl

theorem convertTypeToChar_invalid (t : Nat) (h : ¬ isValidType t) :
    convertTypeToChar t = .error (.InvalidPacketType t) := by
  unfold convertTypeToChar
  split_ifs with h1 h2 h3 h4 h5 h6 h7 <;>
    first
      | rfl
      | (exfalso; apply h; unfold isValidType; tauto)

theorem convertCharToType_digit (c : Nat) (h1 : 48 ≤ c) (h2 : c ≤ 54) :
    convertCharToType c = .ok (c - 48) := by
  interval_cases c <;> rfl

theorem convertCharToType_invalid (c : Nat) (h : ¬ (48 ≤ c ∧ c ≤ 54)) :
    convertCharToType c = .error (.InvalidPacketType c) := by
  unfold convertCharToType
  split_ifs with h1 h2 h3 h4 h5 h6 h7 <;> first | rfl | omega

theorem isValidType_le (t : Nat) (h : isValidType t) : t ≤ 6 := by
  rcases h with h | h | h | h | h | h | h <;> subst h <;> simp [OPEN, CLOSE, PING, PONG,
    MESSAGE, UPGRADE, NOOP]

theorem convertCharToType_shift (t : Nat) (h : isValidType t) :
    convertCharToType (t + 48) = .ok t := by
  rcases h with h | h | h | h | h | h | h <;> subst h <;> rfl

theorem b64Encode_length_ge : ∀ (bs : List Nat), bs ≠ [] → 4 ≤ (b64EncodeBytes bs).length
  | [], h => absurd rfl h
  | [_], _ => by simp [b64EncodeBytes]
  | [_, _], _ => by simp [b64EncodeBytes]
  | _ :: _ :: _ :: rest, _ => by
      simp only [b64EncodeBytes, List.length_cons]
      omega

/-! ### Claim theorems -/

/-- C9: decode of a zero-length buffer fails with EmptyInput for each of the
three codecs, yielding no packet. -/
theorem claim9_empty_input :
    binCodec.decode [] = .error .EmptyInput ∧
    strCodec.decode [] = .error .EmptyInput ∧
    b64Codec.decode [] = .error .EmptyInput :=
  ⟨rfl, rfl, rfl⟩

/-- C3: on a one-byte input, base64 decode succeeds exactly when the byte is
a digit 48..54, producing that type, empty Data, and Flag = BINARY; any other
byte fails with InvalidPacketType. -/
theorem claim3_b64_short_form (c : Nat) :
    (48 ≤ c ∧ c ≤ 54 → b64Codec.decode [c] = .ok ⟨c - 48, [], BINARY⟩) ∧
    (¬ (48 ≤ c ∧ c ≤ 54) → b64Codec.decode [c] = .error (.InvalidPacketType c)) := by
  constructor
  · rintro ⟨h1, h2⟩
    have hc := convertCharToType_digit c h1 h2
    simp [b64Codec.decode, hc, NewPacketCustom]
  · intro h
    have hc := convertCharToType_invalid c h
    simp [b64Codec.decode, hc]

theorem claim3_witness : b64Codec.decode [52] = .ok ⟨4, [], 1⟩ :=
  (claim3_b64_short_form 52).1 (by decide)

/-- C6: binary decode of a non-empty buffer takes the first byte as the raw
numeric type value: a value in the seven-member set succeeds with the
remaining bytes as Data and Flag = BINARY, anything else (such as 7) fails
with InvalidPacketType. -/
theorem claim6_bin_decode (b : Nat) (rest : List Nat) :
    (isValidType b → binCodec.decode (b :: rest) = .ok ⟨b, rest, BINARY⟩) ∧
    (¬ isValidType b → binCodec.decode (b :: rest) = .error (.InvalidPacketType b)) ∧
    binCodec.decode [7, 1, 2] = .error (.InvalidPacketType 7) := by
  refine ⟨?_, ?_, rfl⟩
  · intro h
    have hv : b = OPEN ∨ b = CLOSE ∨ b = PING ∨ b = PONG ∨ b = MESSAGE ∨ b = UPGRADE ∨
        b = NOOP := h
    simp only [binCodec.decode]
    rw [if_pos hv]
    rfl
  · intro h
    have hv : ¬ (b = OPEN ∨ b = CLOSE ∨ b = PING ∨ b = PONG ∨ b = MESSAGE ∨ b = UPGRADE ∨
        b = NOOP) := h
    simp only [binCodec.decode]
    rw [if_neg hv]

theorem claim6_witness : binCodec.decode [2, 9] = .ok ⟨2, [9], 1⟩ :=
  (claim6_bin_decode 2 [9]).1 (by decide)

/-- C7: for a valid type, binary writeTo issues exactly one write of the
single numeric type byte, a second write of Data only when Data is non-empty,
and no second write at all when Data is empty; encode of a PING packet with
no data is the single byte 2. -/
theorem claim7_bin_writeTo (p : Packet) (hv : isValidType p.type) :
    (p.data = [] → binCodec.writeTo p = .ok [[p.type]]) ∧
    (p.data ≠ [] → binCodec.writeTo p = .ok [[p.type], p.data]) ∧
    binCodec.encode ⟨PING, [], 0⟩ = .ok [2] := by
  have ht : p.type ≤ 6 := isValidType_le _ hv
  have hm : p.type % 256 = p.type := Nat.mod_eq_of_lt (by omega)
  refine ⟨?_, ?_, rfl⟩
  · intro h
    simp [binCodec.writeTo, h, hm]
  · intro h
    simp [binCodec.writeTo, h, hm]

theorem claim7_witness : binCodec.writeTo ⟨2, [], 0⟩ = .ok [[2]] :=
  (claim7_bin_writeTo ⟨2, [], 0⟩ (by decide)).1 rfl

/-- C8: string codec — for a valid type, writeTo writes the ASCII digit and
then always issues the Data write (even when Data is empty), encode being
digit then payload verbatim; decode of a digit-led buffer yields that type,
the rest as Data, and Flag = 0; the MESSAGE/hello scenarios hold. -/
theorem claim8_str_codec (p : Packet) (c : Nat) (rest : List Nat) :
    (isValidType p.type →
      strCodec.writeTo p = .ok [[p.type + 48], p.data] ∧
      strCodec.encode p = .ok ((p.type + 48) :: p.data)) ∧
    (48 ≤ c → c ≤ 54 → strCodec.decode (c :: rest) = .ok ⟨c - 48, rest, 0⟩) ∧
    strCodec.encode ⟨MESSAGE, [104, 101, 108, 108, 111], 0⟩ =
      .ok [52, 104, 101, 108, 108, 111] ∧
    strCodec.decode [52, 104, 101, 108, 108, 111] =
      .ok ⟨MESSAGE, [104, 101, 108, 108, 111], 0⟩ := by
  refine ⟨?_, ?_, rfl, rfl⟩
  · intro hv
    have hc := convertTypeToChar_valid p.type hv
    refine ⟨?_, ?_⟩
    · simp [strCodec.writeTo, hc]
    · simp [strCodec.encode, strCodec.writeTo, hc]
  · intro h1 h2
    have hc := convertCharToType_digit c h1 h2
    simp [strCodec.decode, hc, NewPacketCustom]

theorem claim8_witness :
    strCodec.writeTo ⟨0, [], 0⟩ = .ok [[48], []] ∧ strCodec.encode ⟨0, [], 0⟩ = .ok [48] :=
  (claim8_str_codec ⟨0, [], 0⟩ 48 []).1 (by decide)

/-- C5: base64 encode — for a valid type, empty Data gives only the digit
byte (no 98 prefix), non-empty Data gives 98, the digit, then the padded
standard base64 text of Data; the OPEN/abc and NOOP/nil scenarios hold. -/
theorem claim5_b64_encode (p : Packet) (hv : isValidType p.type) :
    (p.data = [] → b64Codec.encode p = .ok [p.type + 48]) ∧
    (p.data ≠ [] → b64Codec.encode p = .ok (98 :: (p.type + 48) :: b64EncodeBytes p.data)) ∧
    b64Codec.encode ⟨OPEN, [97, 98, 99], 0⟩ = .ok [98, 48, 89, 87, 74, 106] ∧
    b64Codec.encode ⟨NOOP, [], 0⟩ = .ok [54] := by
  have hc := convertTypeToChar_valid p.type hv
  refine ⟨?_, ?_, rfl, rfl⟩
  · intro h
    simp [b64Codec.encode, b64Codec.writeTo, hc, h]
  · intro h
    simp [b64Codec.encode, b64Codec.writeTo, hc, h]

theorem claim5_witness : b64Codec.encode ⟨6, [], 0⟩ = .ok [54] :=
  (claim5_b64_encode ⟨6, [], 0⟩ (by decide)).1 rfl

/-- C4: base64 decode on inputs of length at least 2 — a first byte other
than 98 fails with InvalidFraming carrying the raw buffer; byte 98 followed
by a non-digit fails with InvalidPacketType; a corrupt base64 body fails
with InvalidPayloadEncoding; a well-formed body succeeds with the decoded
bytes as Data and Flag = BINARY.  The x4 and b4!!! scenarios hold. -/
theorem claim4_b64_long_form (b0 b1 : Nat) (rest : List Nat) :
    (b0 ≠ 98 →
      b64Codec.decode (b0 :: b1 :: rest) = .error (.InvalidFraming (b0 :: b1 :: rest))) ∧
    (b0 = 98 → ¬ (48 ≤ b1 ∧ b1 ≤ 54) →
      b64Codec.decode (b0 :: b1 :: rest) = .error (.InvalidPacketType b1)) ∧
    (b0 = 98 → ∀ t, convertCharToType b1 = .ok t →
      (b64DecodeString rest = .error .InvalidPayloadEncoding →
        b64Codec.decode (b0 :: b1 :: rest) = .error .InvalidPayloadEncoding) ∧
      (∀ ds, b64DecodeString rest = .ok ds →
        b64Codec.decode (b0 :: b1 :: rest) = .ok ⟨t, ds, BINARY⟩)) ∧
    b64Codec.decode [120, 52] = .error (.InvalidFraming [120, 52]) ∧
    b64Codec.decode [98, 52, 33, 33, 33] = .error .InvalidPayloadEncoding := by
  refine ⟨?_, ?_, ?_, rfl, rfl⟩
  · intro h
    simp only [b64Codec.decode]
    rw [if_neg h]
  · intro h hb1
    subst h
    have hc := convertCharToType_invalid b1 hb1
    simp [b64Codec.decode, hc]
  · intro h t ht
    subst h
    refine ⟨?_, ?_⟩
    · intro hd
      simp [b64Codec.decode, ht, hd]
    · intro ds hd
      simp [b64Codec.decode, ht, hd, NewPacketCustom]

theorem claim4_witness : b64Codec.decode [120, 52] = .error (.InvalidFraming [120, 52]) :=
  (claim4_b64_long_form 120 52 []).1 (by decide)

/-- C10: base64 decode also accepts 98 followed by a valid digit (an empty
long-form body), yielding the same packet as the digit alone — two distinct
inputs with one image, so decode is not injective — while encode never
produces a two-byte output. -/
theorem claim10_b64_two_preimages (c t : Nat) (h : convertCharToType c = .ok t) :
    b64Codec.decode [98, c] = .ok ⟨t, [], BINARY⟩ ∧
    b64Codec.decode [c] = .ok ⟨t, [], BINARY⟩ ∧
    [98, c] ≠ [c] ∧
    (∀ p : Packet, ∀ out, b64Codec.encode p = .ok out → out.length ≠ 2) := by
  refine ⟨?_, ?_, by simp, ?_⟩
  · simp [b64Codec.decode, h, b64DecodeString, b64DecodeQuanta, NewPacketCustom]
  · simp [b64Codec.decode, h, NewPacketCustom]
  · intro p out hout hlen
    unfold b64Codec.encode b64Codec.writeTo at hout
    cases hc : convertTypeToChar p.type with
    | error e => rw [hc] at hout; simp at hout
    | ok tc =>
      rw [hc] at hout
      by_cases hd : p.data = []
      · simp [hd] at hout
        subst hout
        simp at hlen
      · simp [hd] at hout
        have h4 := b64Encode_length_ge p.data hd
        subst hout
        rw [List.length_cons, List.length_cons] at hlen
        omega

theorem claim10_witness : b64Codec.decode [98, 52] = .ok ⟨4, [], 1⟩ :=
  (claim10_b64_two_preimages 52 4 rfl).1

/-- C1 counterexample: the claim as stated fails outside the carved-out
base64 short form — the string codec drops a BINARY flag: encoding the
packet (MESSAGE, [104], BINARY) and decoding the result yields Flag 0, a
different packet. -/
theorem claim1_counterexample :
    strCodec.encode ⟨MESSAGE, [104], BINARY⟩ = .ok [52, 104] ∧
    strCodec.decode [52, 104] = .ok ⟨MESSAGE, [104], 0⟩ ∧
    (⟨MESSAGE, [104], 0⟩ : Packet) ≠ ⟨MESSAGE, [104], BINARY⟩ :=
  ⟨rfl, rfl, by decide⟩

/-- C1 (amended): for every packet with a valid type (and byte-valued data),
decode of encode restores Type and Data under each codec, and the decoded
Flag is the codec's wire-form flag — BINARY for the binary and base64 codecs
(base64 giving BINARY even for the empty short form), 0 for the string codec
— so equality including Flag holds exactly when the packet's Flag already
equals that value. -/
theorem claim1_roundtrip_amended (p : Packet) (hv : isValidType p.type)
    (hb : ∀ b ∈ p.data, b < 256) :
    (binCodec.encode p).bind binCodec.decode = .ok ⟨p.type, p.data, BINARY⟩ ∧
    (strCodec.encode p).bind strCodec.decode = .ok ⟨p.type, p.data, 0⟩ ∧
    (b64Codec.encode p).bind b64Codec.decode = .ok ⟨p.type, p.data, BINARY⟩ := by
  have ht : p.type ≤ 6 := isValidType_le _ hv
  have hm : p.type % 256 = p.type := Nat.mod_eq_of_lt (by omega)
  have hcv := convertTypeToChar_valid p.type hv
  have hcc := convertCharToType_shift p.type hv
  have hv' : p.type = OPEN ∨ p.type = CLOSE ∨ p.type = PING ∨ p.type = PONG ∨
      p.type = MESSAGE ∨ p.type = UPGRADE ∨ p.type = NOOP := hv
  refine ⟨?_, ?_, ?_⟩
  · have henc : binCodec.encode p = .ok (p.type :: p.data) := by
      unfold binCodec.encode binCodec.writeTo
      by_cases hd : p.data = [] <;> simp [hd, hm]
    rw [henc]
    show binCodec.decode (p.type :: p.data) = _
    simp only [binCodec.decode]
    rw [if_pos hv']
    rfl
  · have henc : strCodec.encode p = .ok ((p.type + 48) :: p.data) := by
      unfold strCodec.encode strCodec.writeTo
      simp [hcv]
    rw [henc]
    show strCodec.decode ((p.type + 48) :: p.data) = _
    simp [strCodec.decode, hcc, NewPacketCustom]
  · by_cases hd : p.data = []
    · have henc : b64Codec.encode p = .ok [p.type + 48] := by
        unfold b64Codec.encode b64Codec.writeTo
        simp [hcv, hd]
      rw [henc]
      show b64Codec.decode [p.type + 48] = _
      rw [hd]
      simp [b64Codec.decode, hcc, NewPacketCustom]
    · have henc : b64Codec.encode p = .ok (98 :: (p.type + 48) :: b64EncodeBytes p.data) := by
        unfold b64Codec.encode b64Codec.writeTo
        simp [hcv, hd]
      have hdec := b64DecodeString_roundtrip p.data hb
      rw [henc]
      show b64Codec.decode (98 :: (p.type + 48) :: b64EncodeBytes p.data) = _
      simp [b64Codec.decode, hcc, hdec, NewPacketCustom]

theorem claim1_witness :
    (binCodec.encode ⟨4, [104], 1⟩).bind binCodec.decode = .ok ⟨4, [104], 1⟩ ∧
    (strCodec.encode ⟨4, [104], 1⟩).bind strCodec.decode = .ok ⟨4, [104], 0⟩ ∧
    (b64Codec.encode ⟨4, [104], 1⟩).bind b64Codec.decode = .ok ⟨4, [104], 1⟩ :=
  claim1_roundtrip_amended ⟨4, [104], 1⟩ (by decide) (by decide)

/-- C2 counterexample: the binary codec does not reject an out-of-range
type — writeTo and encode of a packet with type 7 succeed, emitting the
byte 7 — so the claim that all three codecs fail with InvalidPacketType and
write nothing is false. -/
theorem claim2_counterexample :
    ¬ isValidType 7 ∧
    binCodec.writeTo ⟨7, [], 0⟩ = .ok [[7]] ∧
    binCodec.encode ⟨7, [], 0⟩ = .ok [7] :=
  ⟨by decide, rfl, rfl⟩

/-- C2 (amended): for a packet whose type is outside the seven valid values,
the string and base64 codecs fail with InvalidPacketType before issuing any
write, while the binary codec performs no validation and serializes the
packet anyway, writing the type value as a raw byte (mod 256) followed by
Data when non-empty. -/
theorem claim2_amended (p : Packet) (hv : ¬ isValidType p.type) :
    strCodec.writeTo p = .error (.InvalidPacketType p.type) ∧
    strCodec.encode p = .error (.InvalidPacketType p.type) ∧
    b64Codec.writeTo p = .error (.InvalidPacketType p.type) ∧
    b64Codec.encode p = .error (.InvalidPacketType p.type) ∧
    (p.data = [] → binCodec.writeTo p = .ok [[p.type % 256]] ∧
      binCodec.encode p = .ok [p.type % 256]) ∧
    (p.data ≠ [] → binCodec.writeTo p = .ok [[p.type % 256], p.data] ∧
      binCodec.encode p = .ok (p.type % 256 :: p.data)) := by
  have hc := convertTypeToChar_invalid p.type hv
  refine ⟨?_, ?_, ?_, ?_, ?_, ?_⟩
  · simp [strCodec.writeTo, hc]
  · simp [strCodec.encode, strCodec.writeTo, hc]
  · simp [b64Codec.writeTo, hc]
  · simp [b64Codec.encode, b64Codec.writeTo, hc]
  · intro hd
    refine ⟨?_, ?_⟩ <;> simp [binCodec.encode, binCodec.writeTo, hd]
  · intro hd
    refine ⟨?_, ?_⟩ <;> simp [binCodec.encode, binCodec.writeTo, hd]

theorem claim2_witness :
    strCodec.writeTo ⟨7, [], 0⟩ = .error (.InvalidPacketType 7) :=
  (claim2_amended ⟨7, [], 0⟩ (by decide)).1

end EngineIO
